import Mathlib

/- Shallow embedding of the PeRatio basket-construction and risk-sizing core:
   `src/backend/lllm/basket_builder.py` (class BasketBuilder),
   `src/backend/lllm/risk_manager 2.py` (class RiskManager), and the constants
   they import from `src/backend/lllm/config.py`.

   Modelling conventions:
   * Python floats are modelled as exact rationals (ℚ).
   * Python dicts (volatilities, convictions, market caps) are modelled as
     association lists `List (String × ℚ)` with first-match lookup, which is
     `dict.get`; the empty list doubles for Python `None` (both are falsy in
     the `if not volatilities:` style guards of the source).
   * Any Python expression that can raise `ZeroDivisionError` is modelled as
     an `Option`-valued computation that returns `none` exactly at the
     raising input; everything else is a plain total function, as the code is.
   * `round(x, n)` is modelled as exact decimal rounding on ℚ.  (The float
     banker's tie rule differs only at exact half-ties, which no claim
     exercises.) -/

namespace PeRatio

/-- `CRYPTO_ASSETS` from config.py. -/
def CRYPTO_ASSETS : List String :=
  ["BTC", "ETH", "SOL", "ARB", "OP", "DOGE", "MATIC"]

/-- `METAL_ASSETS` from config.py. -/
def METAL_ASSETS : List String := ["XAU", "XAG", "XPT", "XPD", "HG"]

/-- `STOCK_ASSETS` from config.py. -/
def STOCK_ASSETS : List String :=
  ["AAPL", "NVDA", "TSLA", "MSFT", "GOOGL", "AMZN", "META", "AMD"]

/-- `ALL_ASSETS = CRYPTO_ASSETS` (config.py line 82: crypto only). -/
def ALL_ASSETS : List String := CRYPTO_ASSETS

/-- `MAX_ASSETS_PER_SIDE = 5` from config.py. -/
def MAX_ASSETS_PER_SIDE : Nat := 5

/-- `MIN_WEIGHT_PER_ASSET = 0.10` from config.py. -/
def MIN_WEIGHT_PER_ASSET : ℚ := 1/10

/-- Python `dict.get(key)`: first-match association-list lookup. -/
def dictGet (l : List (String × ℚ)) (k : String) : Option ℚ :=
  match l with
  | [] => none
  | (a, b) :: t => if a = k then some b else dictGet t k

/-- `VOLATILITY_BASELINES = {CRYPTO: 5.0, METALS: 1.5, STOCKS: 2.5}`. -/
def VOLATILITY_BASELINES : List (String × ℚ) :=
  [("CRYPTO", 5), ("METALS", 3/2), ("STOCKS", 5/2)]

/-- `BasketBuilder._get_asset_class` / `RiskManager._get_asset_class`:
    first matching class in dict insertion order CRYPTO, METALS, STOCKS,
    else "UNKNOWN". -/
def get_asset_class (symbol : String) : String :=
  if symbol ∈ CRYPTO_ASSETS then "CRYPTO"
  else if symbol ∈ METAL_ASSETS then "METALS"
  else if symbol ∈ STOCK_ASSETS then "STOCKS"
  else "UNKNOWN"

/-- One basket entry, the Python dict `{"coin": ..., "weight": ...}`. -/
structure AssetWeight where
  coin : String
  weight : ℚ
deriving DecidableEq, Repr

/-- Python `round(x, 4)` as exact decimal rounding on ℚ. -/
def round4 (x : ℚ) : ℚ := ((round (x * 10000) : ℤ) : ℚ) / 10000

/-- Python `round(x, 2)` as exact decimal rounding on ℚ. -/
def round2 (x : ℚ) : ℚ := ((round (x * 100) : ℤ) : ℚ) / 100

/-- The `new_weights` vector of `BasketBuilder._enforce_min_weight`
    (lines 209-230): below-minimum entries are raised to `min_weight`;
    when `above_total > deficit` each above-minimum entry is scaled by
    `(above_total - deficit) / above_total`, otherwise left unmodified.
    (Python classifies by index; since the classification depends only on
    the entry's value, a value-based map is equivalent.) -/
def emw_scaled (min_weight : ℚ) (weights : List ℚ) : List ℚ :=
  let deficit := ((weights.filter (fun x => x < min_weight)).map
    (fun x => min_weight - x)).sum
  let above_total := (weights.filter (fun x => ¬ x < min_weight)).sum
  weights.map (fun x =>
    if x < min_weight then min_weight
    else if above_total > deficit then
      x * ((above_total - deficit) / above_total)
    else x)

/-- `BasketBuilder._enforce_min_weight` (lines 197-236).  Branches:
    infeasible floor `n * min_weight > 1` returns equal weights; no entry
    below the floor returns the input unchanged; otherwise the scaled vector
    is renormalised by its total.  `none` models the `ZeroDivisionError`
    Python raises when that total is zero. -/
def enforce_min_weight (min_weight : ℚ) (weights : List ℚ) : Option (List ℚ) :=
  if 1 < (weights.length : ℚ) * min_weight then
    some (List.replicate weights.length (1 / (weights.length : ℚ)))
  else if weights.filter (fun x => x < min_weight) = [] then
    some weights
  else if (emw_scaled min_weight weights).sum = 0 then none
  else
    some ((emw_scaled min_weight weights).map
      (fun x => x / (emw_scaled min_weight weights).sum))

/-- `BasketBuilder._equal_weight`. -/
def equal_weight (assets : List String) : List ℚ :=
  List.replicate assets.length (1 / (assets.length : ℚ))

/-- `BasketBuilder._volatility_weight`: inverse volatility (floored at 0.1),
    normalised, then passed through the minimum-weight redistributor.  An
    empty/None map is replaced by per-asset-class baselines. -/
def volatility_weight (assets : List String)
    (volatilities : List (String × ℚ)) : Option (List ℚ) :=
  let volatilities :=
    if volatilities = [] then
      assets.map (fun a =>
        (a, (dictGet VOLATILITY_BASELINES (get_asset_class a)).getD 3))
    else volatilities
  let vols := assets.map (fun a => (dictGet volatilities a).getD 3)
  let inv_vols := vols.map (fun v => 1 / max v (1/10))
  enforce_min_weight MIN_WEIGHT_PER_ASSET
    (inv_vols.map (fun iv => iv / inv_vols.sum))

/-- `BasketBuilder._conviction_weight`: proportional to scores (default 5.0),
    equal weights if no map or a non-positive total. -/
def conviction_weight (assets : List String)
    (convictions : List (String × ℚ)) : Option (List ℚ) :=
  if convictions = [] then some (equal_weight assets)
  else
    let scores := assets.map (fun a => (dictGet convictions a).getD 5)
    if scores.sum ≤ 0 then some (equal_weight assets)
    else
      enforce_min_weight MIN_WEIGHT_PER_ASSET
        (scores.map (fun s => s / scores.sum))

/-- Fallback market caps hard-coded in `_market_cap_weight`. -/
def default_caps : List (String × ℚ) :=
  [("BTC", 800), ("ETH", 300), ("SOL", 50), ("XRP", 30), ("DOGE", 20),
   ("AVAX", 15), ("LINK", 10), ("MATIC", 8), ("ARB", 5), ("OP", 4),
   ("XAU", 500), ("XAG", 30), ("XPT", 5), ("XPD", 5), ("HG", 10),
   ("AAPL", 3000), ("MSFT", 2800), ("NVDA", 1200), ("GOOGL", 1800),
   ("AMZN", 1600), ("META", 800), ("TSLA", 700), ("AMD", 200)]

/-- `BasketBuilder._market_cap_weight`: proportional to caps (default 10 for
    unknown symbols).  Unlike `_conviction_weight`, the source has no guard
    on a non-positive total, so `none` models the `ZeroDivisionError` raised
    when the looked-up caps sum to zero. -/
def market_cap_weight (assets : List String)
    (market_caps : List (String × ℚ)) : Option (List ℚ) :=
  let market_caps := if market_caps = [] then default_caps else market_caps
  let caps := assets.map (fun a => (dictGet market_caps a).getD 10)
  if caps.sum = 0 then none
  else
    enforce_min_weight MIN_WEIGHT_PER_ASSET
      (caps.map (fun cp => cp / caps.sum))

/-- The weighting dispatch inside `BasketBuilder.create_basket`
    (lines 79-89); an unknown method name falls back to equal weights. -/
def basket_weights (assets : List String) (weighting : String)
    (volatilities convictions market_caps : List (String × ℚ)) :
    Option (List ℚ) :=
  if weighting = "equal" then some (equal_weight assets)
  else if weighting = "volatility" then volatility_weight assets volatilities
  else if weighting = "conviction" then conviction_weight assets convictions
  else if weighting = "market_cap" then market_cap_weight assets market_caps
  else some (equal_weight assets)

/-- `BasketBuilder.create_basket` (lines 49-99): empty input returns `[]`,
    oversized input is trimmed to the first `MAX_ASSETS_PER_SIDE` symbols,
    weights are zipped back onto symbols and rounded to 4 decimal places. -/
def create_basket (assets : List String) (weighting : String)
    (volatilities convictions market_caps : List (String × ℚ)) :
    Option (List AssetWeight) :=
  if assets = [] then some []
  else
    let assets := assets.take MAX_ASSETS_PER_SIDE
    (basket_weights assets weighting volatilities convictions market_caps).map
      (fun weights => (assets.zip weights).map
        (fun p => { coin := p.1, weight := round4 p.2 }))

/-- Models Python fixed-point formatting `f"{x:.df}"` on exact rationals. -/
def formatFixed (d : Nat) (x : ℚ) : String :=
  let m : ℤ := 10 ^ d
  let cents : ℤ := round (|x| * (m : ℚ))
  let fpStr := toString (cents % m).toNat
  let pad := String.mk (List.replicate (d - fpStr.length) '0')
  (if x < 0 then "-" else "") ++ toString (cents / m) ++ "." ++ pad ++ fpStr

/-- `BasketBuilder.validate_basket` (lines 245-284): short-circuits on an
    empty basket, otherwise collects every violated invariant.  (Weight
    values inside messages use the ℚ printer where Python prints the float
    repr; message text is otherwise as in the source.) -/
def validate_basket (basket : List AssetWeight) : Bool × List String :=
  if basket = [] then (false, ["Basket is empty"])
  else
    let sizeErrs :=
      if basket.length > MAX_ASSETS_PER_SIDE then
        ["Basket has " ++ toString basket.length ++ " assets (max " ++
          toString MAX_ASSETS_PER_SIDE ++ ")"]
      else []
    let total_weight := (basket.map (fun i => i.weight)).sum
    let sumErrs :=
      if |total_weight - 1| > (1/100 : ℚ) then
        ["Weights sum to " ++ formatFixed 4 total_weight ++ ", not 1.0"]
      else []
    let itemErrs := (basket.map (fun item =>
      (if item.coin = "" then ["Basket item missing \x27coin\x27 field"]
       else if item.coin ∉ ALL_ASSETS then
         ["Invalid symbol: " ++ item.coin]
       else []) ++
      (if item.weight ≤ 0 then
         ["Invalid weight for " ++ item.coin ++ ": " ++ toString item.weight]
       else if item.weight < MIN_WEIGHT_PER_ASSET then
         ["Weight for " ++ item.coin ++ " (" ++
           formatFixed 2 (item.weight * 100) ++ "%) below minimum (" ++
           formatFixed 2 (MIN_WEIGHT_PER_ASSET * 100) ++ "%)"]
       else []))).flatten
    let errors := sizeErrs ++ sumErrs ++ itemErrs
    (errors = [], errors)

/-- The symbols `[a["coin"] for a in basket]`. -/
def basket_coins (basket : List AssetWeight) : List String :=
  basket.map (fun a => a.coin)

/-- `set(self._get_asset_class(a["coin"]) for a in basket)`. -/
def basket_classes (basket : List AssetWeight) : Finset String :=
  ((basket_coins basket).map get_asset_class).toFinset

/-- `BasketBuilder.get_basket_type` (lines 286-323): exact-match table on the
    two class sets; the chained Python comparison `a == b == {"X"}` is the
    conjunction of the two equalities. -/
def get_basket_type (long_basket short_basket : List AssetWeight) : String :=
  let lc := basket_classes long_basket
  let sc := basket_classes short_basket
  if lc = {"METALS"} ∧ sc = {"CRYPTO"} then "METALS_VS_CRYPTO"
  else if lc = {"CRYPTO"} ∧ sc = {"METALS"} then "CRYPTO_VS_METALS"
  else if lc = {"STOCKS"} ∧ sc = {"CRYPTO"} then "STOCKS_VS_CRYPTO"
  else if lc = {"CRYPTO"} ∧ sc = {"STOCKS"} then "CRYPTO_VS_STOCKS"
  else if lc = {"METALS"} ∧ sc = {"STOCKS"} then "METALS_VS_STOCKS"
  else if lc = {"STOCKS"} ∧ sc = {"METALS"} then "STOCKS_VS_METALS"
  else if lc = sc ∧ sc = {"CRYPTO"} then "CRYPTO_VS_CRYPTO"
  else if lc = sc ∧ sc = {"METALS"} then "METALS_VS_METALS"
  else if lc = sc ∧ sc = {"STOCKS"} then "STOCKS_VS_STOCKS"
  else "MIXED_BASKET"

/-- The per-asset lookup inside `RiskManager._calculate_basket_volatility`:
    the map's value, else the asset-class baseline (3.0 for UNKNOWN). -/
def asset_vol (volatilities : List (String × ℚ)) (asset : String) : ℚ :=
  match dictGet volatilities asset with
  | some v => v
  | none => (dictGet VOLATILITY_BASELINES (get_asset_class asset)).getD 3

/-- `RiskManager._calculate_basket_volatility` (lines 179-194): unweighted
    mean of per-asset volatilities, 3.0 for an empty list. -/
def calculate_basket_volatility (assets : List String)
    (volatilities : List (String × ℚ)) : ℚ :=
  let vols := assets.map (asset_vol volatilities)
  if vols = [] then 3 else vols.sum / (vols.length : ℚ)

/-- `avg_vol = (long_vol + short_vol) / 2` from `_calculate_vol_adjustment`
    (lines 211-213). -/
def basket_pair_avg_vol (long_basket short_basket : List AssetWeight)
    (volatilities : List (String × ℚ)) : ℚ :=
  (calculate_basket_volatility (basket_coins long_basket) volatilities +
    calculate_basket_volatility (basket_coins short_basket) volatilities) / 2

/-- `RiskManager._calculate_vol_adjustment` (lines 196-247).  The literal 5
    is `crypto_baseline = VOLATILITY_BASELINES["CRYPTO"]`.  `none` models the
    `ZeroDivisionError` raised at `avg_vol = 0` on the cross-asset branch
    (the source divides by `avg_vol` there; the same-class branch never
    divides). -/
def calculate_vol_adjustment (long_basket short_basket : List AssetWeight)
    (volatilities : List (String × ℚ)) : Option ℚ :=
  if basket_classes long_basket ≠ basket_classes short_basket then
    if basket_pair_avg_vol long_basket short_basket volatilities = 0 then none
    else if basket_pair_avg_vol long_basket short_basket volatilities < 5 then
      some (min (5 / basket_pair_avg_vol long_basket short_basket volatilities) 3)
    else
      some (max (5 / basket_pair_avg_vol long_basket short_basket volatilities) (1/2))
  else
    if basket_pair_avg_vol long_basket short_basket volatilities > 10 then
      some (3/5)
    else if basket_pair_avg_vol long_basket short_basket volatilities > 7 then
      some (4/5)
    else if basket_pair_avg_vol long_basket short_basket volatilities < 2 then
      some (6/5)
    else some 1

/-- Return value of `RiskManager.calculate_position_size`: the two dict
    shapes the source can return (status "rejected" carries
    `rejection_reason, size_usd, risk_usd`; status "approved" carries the
    full field set, in source order). -/
inductive SizingResult where
  | rejected (rejection_reason : String) (size_usd risk_usd : ℚ)
  | approved (size_usd long_size_usd short_size_usd risk_usd leverage
      vol_adjustment confidence_used sl_percent_used : ℚ)
deriving DecidableEq, Repr

/-- `RiskManager.calculate_position_size` (lines 73-177), parametrised by the
    constructor fields `account_balance, risk_per_trade, max_positions,
    max_leverage`.  `none` models a `ZeroDivisionError`: stop-loss 0 (line
    138), zero average volatility on a cross-asset pair (line 228), or zero
    account balance (line 149).  The average volatility of the combined
    baskets (source lines 117-120) is only logged and does not affect the
    result, so it is not recomputed here. -/
def calculate_position_size (account_balance risk_per_trade : ℚ)
    (max_positions : Int) (max_leverage : ℚ) (confidence : ℚ)
    (long_basket short_basket : List AssetWeight)
    (volatilities : List (String × ℚ)) (open_positions : Int)
    (sl_percent : ℚ) : Option SizingResult :=
  if open_positions ≥ max_positions then
    some (.rejected
      ("Position limit reached (" ++ toString open_positions ++ "/" ++
        toString max_positions ++ ")") 0 0)
  else
    let base_risk := account_balance * risk_per_trade
    let confidence_mult := 1/2 + confidence / 20
    match calculate_vol_adjustment long_basket short_basket volatilities with
    | none => none
    | some vol_adjustment =>
      let position_penalty := max (1 - (open_positions : ℚ) * (1/5)) (2/5)
      let risk_usd := base_risk * confidence_mult * vol_adjustment *
        position_penalty
      if sl_percent = 0 then none
      else
        let sl_decimal := sl_percent / 100
        let size_usd := risk_usd / sl_decimal
        let max_size := account_balance * (1/4)
        let size_usd2 := if size_usd > max_size then max_size else size_usd
        let risk_usd2 :=
          if size_usd > max_size then size_usd2 * sl_decimal else risk_usd
        if account_balance = 0 then none
        else
          let leverage :=
            min (size_usd2 / (account_balance / 2)) max_leverage
          if risk_usd2 < 50 then
            some (.rejected
              ("Risk amount $" ++ formatFixed 2 risk_usd2 ++
                " below minimum $50") 0 0)
          else
            some (.approved (round2 size_usd2) (round2 (size_usd2 / 2))
              (round2 (size_usd2 / 2)) (round2 risk_usd2) (round2 leverage)
              (round2 vol_adjustment) confidence sl_percent)

/-! ### Helper lemmas about the minimum-weight redistributor -/

theorem emw_infeasible {min_weight : ℚ} {weights : List ℚ}
    (h : 1 < (weights.length : ℚ) * min_weight) :
    enforce_min_weight min_weight weights =
      some (List.replicate weights.length (1 / (weights.length : ℚ))) := by
  unfold enforce_min_weight
  rw [if_pos h]

theorem emw_nobelow {min_weight : ℚ} {weights : List ℚ}
    (h1 : ¬ 1 < (weights.length : ℚ) * min_weight)
    (h2 : weights.filter (fun x => x < min_weight) = []) :
    enforce_min_weight min_weight weights = some weights := by
  unfold enforce_min_weight
  rw [if_neg h1, if_pos h2]

theorem emw_some_length {min_weight : ℚ} {weights v : List ℚ}
    (h : enforce_min_weight min_weight weights = some v) :
    v.length = weights.length := by
  unfold enforce_min_weight at h
  split_ifs at h with h1 h2 h3
  · injection h with h; subst h; simp
  · injection h with h; subst h; rfl
  · injection h with h; subst h
    simp [emw_scaled]

theorem sum_map_div (l : List ℚ) (t : ℚ) :
    (l.map (fun x => x / t)).sum = l.sum / t := by
  induction l with
  | nil => simp
  | cons a l ih => simp [ih, add_div]

theorem emw_some_sum_one {min_weight : ℚ} {weights v : List ℚ}
    (hsum : weights.sum = 1)
    (h : enforce_min_weight min_weight weights = some v) : v.sum = 1 := by
  unfold enforce_min_weight at h
  split_ifs at h with h1 h2 h3
  · injection h with h; subst h
    have hn : weights.length ≠ 0 := by
      intro h0
      rw [h0] at h1; norm_num at h1
    have hq : ((weights.length : ℚ)) ≠ 0 := Nat.cast_ne_zero.mpr hn
    rw [List.sum_replicate, nsmul_eq_mul]
    field_simp
  · injection h with h; subst h; exact hsum
  · injection h with h; subst h
    rw [sum_map_div]
    exact div_self h3

theorem emw_pos_isSome (min_weight : ℚ) (hm : 0 < min_weight)
    (weights : List ℚ) : (enforce_min_weight min_weight weights).isSome := by
  unfold enforce_min_weight
  split_ifs with h1 h2 h3
  · rfl
  · rfl
  · exfalso
    have hwne : weights ≠ [] := by
      intro h0; rw [h0] at h2; simp at h2
    have hdef : 0 < ((weights.filter (fun x => x < min_weight)).map
        (fun x => min_weight - x)).sum := by
      apply List.sum_pos
      · intro y hy
        obtain ⟨x, hx, rfl⟩ := List.mem_map.mp hy
        have hxlt := (List.mem_filter.mp hx).2
        simp only [decide_eq_true_eq] at hxlt
        linarith
      · simp only [ne_eq, List.map_eq_nil_iff]
        exact h2
    have hpos : ∀ y ∈ emw_scaled min_weight weights, 0 < y := by
      intro y hy
      simp only [emw_scaled] at hy
      obtain ⟨x, hx, rfl⟩ := List.mem_map.mp hy
      by_cases hxm : x < min_weight
      · rw [if_pos hxm]; exact hm
      · rw [if_neg hxm]
        have hx0 : 0 < x := lt_of_lt_of_le hm (not_lt.mp hxm)
        by_cases hgt : (weights.filter (fun x => ¬ x < min_weight)).sum >
            ((weights.filter (fun x => x < min_weight)).map
              (fun x => min_weight - x)).sum
        · rw [if_pos hgt]
          have hat : 0 < (weights.filter (fun x => ¬ x < min_weight)).sum :=
            lt_trans hdef hgt
          exact mul_pos hx0 (div_pos (by linarith) hat)
        · rw [if_neg hgt]; exact hx0
    have hssum : 0 < (emw_scaled min_weight weights).sum := by
      apply List.sum_pos _ hpos
      intro h0
      simp only [emw_scaled, List.map_eq_nil_iff] at h0
      exact hwne h0
    rw [h3] at hssum
    exact lt_irrefl 0 hssum
  · rfl

/-! ### C8: infeasible floor returns exactly equal weights -/

/-- C8: whenever `n * minWeight > 1` (the floor is infeasible), the
    redistributor returns exactly the equal-weight vector `[1/n, ..., 1/n]`,
    regardless of the input weights. -/
theorem infeasible_floor_equal_weights (min_weight : ℚ) (weights : List ℚ)
    (h : 1 < (weights.length : ℚ) * min_weight) :
    enforce_min_weight min_weight weights =
      some (List.replicate weights.length (1 / (weights.length : ℚ))) :=
  emw_infeasible h

theorem infeasible_floor_equal_weights_witness :
    enforce_min_weight (1/2) [(7:ℚ)/10, 1/10, 1/10, 1/10] =
      some (List.replicate 4 ((1:ℚ)/4)) :=
  (infeasible_floor_equal_weights (1/2) [(7:ℚ)/10, 1/10, 1/10, 1/10]
    (by norm_num)).trans (by norm_num)

/-! ### C2: the floor guarantee fails at a feasible sum-1 input -/

/-- C2 (code-bug evidence): at the feasible input `[0.09, 0.10, 0.81]`
    (three positive entries summing to 1, `3 × 0.10 ≤ 1`) with minWeight
    0.10, the redistributor returns `[1/10, 9/91, 729/910]`: the output
    still sums to 1, but its second entry `9/91 ≈ 0.0989` is strictly below
    the 0.10 floor — proportional shrinking pushed a previously-compliant
    weight under the minimum, contradicting the claim and the function's own
    docstring ("Ensure all weights meet minimum threshold"). -/
theorem enforce_min_weight_floor_violation :
    enforce_min_weight (1/10) [(9:ℚ)/100, 1/10, 81/100] =
      some [1/10, 9/91, 729/910] ∧
    (9:ℚ)/100 + 1/10 + 81/100 = 1 ∧
    (3 : ℚ) * (1/10) ≤ 1 ∧
    ¬ (1/10 : ℚ) ≤ 9/91 ∧
    (1:ℚ)/10 + 9/91 + 729/910 = 1 := by
  norm_num [enforce_min_weight, emw_scaled, List.filter]

/-! ### C1: the redistributor is not idempotent -/

/-- C1 (counterexample): applying the redistributor twice to
    `[0.09, 0.10, 0.81]` with minWeight 0.10 does not equal applying it
    once (`bind` composes the two Option-valued applications, matching
    `redistribute(redistribute(w, m))`). -/
theorem enforce_min_weight_not_idempotent :
    (enforce_min_weight (1/10) [(9:ℚ)/100, 1/10, 81/100]).bind
        (enforce_min_weight (1/10)) ≠
      enforce_min_weight (1/10) [(9:ℚ)/100, 1/10, 81/100] := by
  norm_num [enforce_min_weight, emw_scaled, List.filter, Option.bind]

/-- C1 (amended): the redistributor is idempotent whenever the floor is
    infeasible for the input length, or the first application's output
    already meets the floor everywhere; in general (see the counterexample)
    a second application changes the output. -/
theorem enforce_min_weight_idempotent_cases (min_weight : ℚ)
    (weights v : List ℚ)
    (hv : enforce_min_weight min_weight weights = some v)
    (h : 1 < (weights.length : ℚ) * min_weight ∨ ∀ x ∈ v, min_weight ≤ x) :
    enforce_min_weight min_weight v = some v := by
  by_cases h1 : 1 < (weights.length : ℚ) * min_weight
  · rw [emw_infeasible h1] at hv
    injection hv with hv
    subst hv
    have hlen : (List.replicate weights.length
        (1 / (weights.length : ℚ))).length = weights.length :=
      List.length_replicate _ _
    rw [emw_infeasible (by rw [hlen]; exact h1), hlen]
  · by_cases h2 : weights.filter (fun x => x < min_weight) = []
    · rw [emw_nobelow h1 h2] at hv
      injection hv with hv
      subst hv
      exact emw_nobelow h1 h2
    · rcases h with h | h
      · exact absurd h h1
      · have hlen := emw_some_length hv
        apply emw_nobelow
        · rw [hlen]; exact h1
        · rw [List.filter_eq_nil_iff]
          intro a ha
          simp only [decide_eq_true_eq, not_lt]
          exact h a ha

theorem enforce_min_weight_idempotent_cases_witness :
    enforce_min_weight 1 [(1:ℚ)/2, 1/2] = some [(1:ℚ)/2, 1/2] :=
  enforce_min_weight_idempotent_cases 1 [(1:ℚ)/2, 1/2] [(1:ℚ)/2, 1/2]
    (by norm_num [enforce_min_weight, List.replicate]) (Or.inl (by norm_num))

/-! ### C9: classifier on metals-vs-crypto and its mirror -/

/-- C9: classifying an all-metals long basket against an all-crypto short
    basket yields "METALS_VS_CRYPTO", and swapping the arguments yields
    "CRYPTO_VS_METALS" — the classifier is not symmetric in its arguments. -/
theorem classify_metals_vs_crypto_asymmetric :
    get_basket_type [⟨"XAU", 1/2⟩, ⟨"XAG", 1/2⟩] [⟨"BTC", 1/2⟩, ⟨"ETH", 1/2⟩]
        = "METALS_VS_CRYPTO" ∧
    get_basket_type [⟨"BTC", 1/2⟩, ⟨"ETH", 1/2⟩] [⟨"XAU", 1/2⟩, ⟨"XAG", 1/2⟩]
        = "CRYPTO_VS_METALS" := by decide

/-! ### C7: the position limit rejects before any sizing computation -/

/-- C7: for every confidence, basket pair, volatility map and stop-loss
    percent (including a zero stop-loss, which would otherwise raise),
    `calculate_position_size` with `open_positions ≥ max_positions` returns
    the position-limit rejection; the guard is the first statement of the
    function, before any sizing computation. -/
theorem position_limit_always_rejects (account_balance risk_per_trade : ℚ)
    (max_positions : Int) (max_leverage confidence : ℚ)
    (long_basket short_basket : List AssetWeight)
    (volatilities : List (String × ℚ)) (open_positions : Int)
    (sl_percent : ℚ) (h : open_positions ≥ max_positions) :
    calculate_position_size account_balance risk_per_trade max_positions
        max_leverage confidence long_basket short_basket volatilities
        open_positions sl_percent =
      some (.rejected
        ("Position limit reached (" ++ toString open_positions ++ "/" ++
          toString max_positions ++ ")") 0 0) := by
  unfold calculate_position_size
  rw [if_pos h]

theorem position_limit_always_rejects_witness :
    calculate_position_size 20000 (1/100) 3 4 (19/2) [⟨"BTC", 1⟩]
        [⟨"ETH", 1⟩] [] 3 0 =
      some (.rejected "Position limit reached (3/3)" 0 0) :=
  (position_limit_always_rejects 20000 (1/100) 3 4 (19/2) [⟨"BTC", 1⟩]
    [⟨"ETH", 1⟩] [] 3 0 (le_refl 3)).trans rfl

/-! ### C10: the volatility adjustment stays in [0.5, 3] -/

theorem cbv_pos (assets : List String) (volatilities : List (String × ℚ))
    (h : ∀ a ∈ assets, 0 < asset_vol volatilities a) :
    0 < calculate_basket_volatility assets volatilities := by
  simp only [calculate_basket_volatility]
  split_ifs with h0
  · norm_num
  · apply div_pos
    · apply List.sum_pos
      · intro x hx
        obtain ⟨a, ha, rfl⟩ := List.mem_map.mp hx
        exact h a ha
      · exact h0
    · have hne : assets ≠ [] := by
        intro h1; subst h1; simp at h0
      rw [List.length_map]
      exact_mod_cast List.length_pos.mpr hne

/-- C10: whenever every looked-up or baseline volatility of the two baskets
    is strictly positive, the volatility adjustment lies in [0.5, 3.0];
    cross-asset trades yield `min(5/avgVol, 3) ∈ (1, 3]` when `avgVol < 5`
    and `max(5/avgVol, 0.5) ∈ [0.5, 1]` otherwise, and same-class trades
    yield one of {0.6, 0.8, 1.0, 1.2}. -/
theorem vol_adjustment_bounds (long_basket short_basket : List AssetWeight)
    (volatilities : List (String × ℚ))
    (hpos : ∀ a ∈ basket_coins long_basket ++ basket_coins short_basket,
      0 < asset_vol volatilities a)
    (adj : ℚ)
    (hadj : calculate_vol_adjustment long_basket short_basket volatilities
      = some adj) :
    (1/2 ≤ adj ∧ adj ≤ 3) ∧
    (basket_classes long_basket ≠ basket_classes short_basket →
      (basket_pair_avg_vol long_basket short_basket volatilities < 5 →
        adj = min (5 / basket_pair_avg_vol long_basket short_basket
          volatilities) 3 ∧ 1 < adj) ∧
      (5 ≤ basket_pair_avg_vol long_basket short_basket volatilities →
        adj = max (5 / basket_pair_avg_vol long_basket short_basket
          volatilities) (1/2) ∧ adj ≤ 1)) ∧
    (basket_classes long_basket = basket_classes short_basket →
      adj = 3/5 ∨ adj = 4/5 ∨ adj = 1 ∨ adj = 6/5) := by
  have hl : 0 < calculate_basket_volatility (basket_coins long_basket)
      volatilities :=
    cbv_pos _ _ (fun a ha => hpos a (List.mem_append_left _ ha))
  have hs : 0 < calculate_basket_volatility (basket_coins short_basket)
      volatilities :=
    cbv_pos _ _ (fun a ha => hpos a (List.mem_append_right _ ha))
  have havg : 0 < basket_pair_avg_vol long_basket short_basket volatilities := by
    unfold basket_pair_avg_vol
    positivity
  unfold calculate_vol_adjustment at hadj
  split_ifs at hadj with hc h0 h5 h10 h7 hlt2
  · injection hadj with hadj
    subst hadj
    have h1lt : 1 < min (5 / basket_pair_avg_vol long_basket short_basket
        volatilities) 3 :=
      lt_min ((one_lt_div havg).mpr h5) (by norm_num)
    refine ⟨⟨le_of_lt (lt_of_le_of_lt (by norm_num) h1lt), min_le_right _ _⟩,
      fun _ => ⟨fun _ => ⟨rfl, h1lt⟩, fun hge => absurd h5 (not_lt.mpr hge)⟩,
      fun heq => absurd heq hc⟩
  · injection hadj with hadj
    subst hadj
    have hle1 : max (5 / basket_pair_avg_vol long_basket short_basket
        volatilities) (1/2) ≤ 1 :=
      max_le ((div_le_one havg).mpr (not_lt.mp h5)) (by norm_num)
    refine ⟨⟨le_max_right _ _, le_trans hle1 (by norm_num)⟩,
      fun _ => ⟨fun hlt => absurd hlt h5, fun _ => ⟨rfl, hle1⟩⟩,
      fun heq => absurd heq hc⟩
  · injection hadj with hadj
    subst hadj
    exact ⟨⟨by norm_num, by norm_num⟩, fun hne => absurd hne hc,
      fun _ => Or.inl rfl⟩
  · injection hadj with hadj
    subst hadj
    exact ⟨⟨by norm_num, by norm_num⟩, fun hne => absurd hne hc,
      fun _ => Or.inr (Or.inl rfl)⟩
  · injection hadj with hadj
    subst hadj
    exact ⟨⟨by norm_num, by norm_num⟩, fun hne => absurd hne hc,
      fun _ => Or.inr (Or.inr (Or.inr rfl))⟩
  · injection hadj with hadj
    subst hadj
    exact ⟨⟨by norm_num, by norm_num⟩, fun hne => absurd hne hc,
      fun _ => Or.inr (Or.inr (Or.inl rfl))⟩

/-! ### C4: the worked sizing scenario -/

/-- C4: with accountBalance 20000, riskPerTrade 0.01, confidence 7.5,
    stopLoss 5%, no open positions, and a same-class all-crypto pair whose
    average volatility lies in [2, 7] (so volAdjustment = 1.0), the sizer
    approves with riskUsd 175, sizeUsd 3500, leverage 0.35 and a 1750/1750
    long/short split. -/
theorem worked_scenario_sizing (long_basket short_basket : List AssetWeight)
    (volatilities : List (String × ℚ))
    (hl : basket_classes long_basket = {"CRYPTO"})
    (hs : basket_classes short_basket = {"CRYPTO"})
    (h2 : 2 ≤ basket_pair_avg_vol long_basket short_basket volatilities)
    (h7 : basket_pair_avg_vol long_basket short_basket volatilities ≤ 7) :
    calculate_position_size 20000 (1/100) 3 4 (15/2) long_basket short_basket
        volatilities 0 5 =
      some (.approved 3500 1750 1750 175 (7/20) 1 (15/2) 5) := by
  have hcva : calculate_vol_adjustment long_basket short_basket volatilities
      = some 1 := by
    unfold calculate_vol_adjustment
    rw [if_neg (not_ne_iff.mpr (hl.trans hs.symm)),
      if_neg (not_lt.mpr (by linarith)), if_neg (not_lt.mpr h7),
      if_neg (not_lt.mpr h2)]
  unfold calculate_position_size
  rw [hcva]
  norm_num [round2, round_eq, max_def, min_def]

theorem worked_scenario_sizing_witness :
    calculate_position_size 20000 (1/100) 3 4 (15/2) [⟨"BTC", 1⟩]
        [⟨"ETH", 1⟩] [("BTC", 4), ("ETH", 4)] 0 5 =
      some (.approved 3500 1750 1750 175 (7/20) 1 (15/2) 5) :=
  worked_scenario_sizing [⟨"BTC", 1⟩] [⟨"ETH", 1⟩] [("BTC", 4), ("ETH", 4)]
    (by decide) (by decide)
    (by norm_num [basket_pair_avg_vol, calculate_basket_volatility,
      basket_coins, asset_vol, dictGet])
    (by norm_num [basket_pair_avg_vol, calculate_basket_volatility,
      basket_coins, asset_vol, dictGet])

theorem vol_adjustment_bounds_witness :
    (1:ℚ)/2 ≤ 1 ∧ (1:ℚ) ≤ 3 :=
  (vol_adjustment_bounds [⟨"BTC", 1⟩] [⟨"ETH", 1⟩] [("BTC", 4), ("ETH", 4)]
    (by intro a ha
        simp only [basket_coins] at ha
        norm_num at ha
        rcases ha with rfl | rfl <;> norm_num [asset_vol, dictGet])
    1
    (by have hcls : ¬ (basket_classes [⟨"BTC", (1:ℚ)⟩] ≠
          basket_classes [⟨"ETH", (1:ℚ)⟩]) := by decide
        unfold calculate_vol_adjustment
        rw [if_neg hcls]
        norm_num [basket_pair_avg_vol, calculate_basket_volatility,
          basket_coins, asset_vol, dictGet])).1

/-! ### C6: the 25%-of-account cap and the post-clamp risk -/

/-- C6 (counterexample): with balance 20000, riskPerTrade 1%, confidence 10,
    a same-class crypto pair (volAdjustment 1), no open positions and
    stop-loss 0.5%, the pre-clamp size 40000 exceeds the cap
    `20000 × 0.25 = 5000`, but the returned result is a *rejection* with
    `size_usd = 0` (the recomputed risk 25 falls under the $50 floor), not
    an approval with `sizeUsd = 5000` — so the claim fails as stated. -/
theorem cap_clamp_rejected_below_min_risk :
    calculate_vol_adjustment [⟨"BTC", 1⟩] [⟨"ETH", 1⟩]
        [("BTC", 4), ("ETH", 4)] = some 1 ∧
    20000 * (1/100) * (1/2 + (10:ℚ)/20) * 1 * max (1 - (0:ℤ) * (1/5)) (2/5) /
        ((1/2) / 100) > 20000 * (1/4) ∧
    calculate_position_size 20000 (1/100) 3 4 10 [⟨"BTC", 1⟩] [⟨"ETH", 1⟩]
        [("BTC", 4), ("ETH", 4)] 0 (1/2) =
      some (.rejected "Risk amount $25.00 below minimum $50" 0 0) ∧
    (0 : ℚ) ≠ 20000 * (1/4) := by
  have hcva : calculate_vol_adjustment [⟨"BTC", 1⟩] [⟨"ETH", 1⟩]
      [("BTC", 4), ("ETH", 4)] = some 1 := by
    have hcls : ¬ (basket_classes [⟨"BTC", (1:ℚ)⟩] ≠
        basket_classes [⟨"ETH", (1:ℚ)⟩]) := by decide
    unfold calculate_vol_adjustment
    rw [if_neg hcls]
    norm_num [basket_pair_avg_vol, calculate_basket_volatility,
      basket_coins, asset_vol, dictGet]
  have hfmt : formatFixed 2 25 = "25.00" := by
    have h : round (|(25:ℚ)| * ((10 ^ 2 : ℤ) : ℚ)) = 2500 := by
      norm_num [round_eq]
    simp only [formatFixed, h]
    rfl
  refine ⟨hcva, by norm_num [max_def], ?_, by norm_num⟩
  unfold calculate_position_size
  rw [hcva]
  norm_num [max_def, min_def, hfmt]
  rfl

/-- C6 (amended): whenever no earlier rejection applies (`k < maxPositions`),
    the division guards hold (`sl ≠ 0`, balance ≠ 0), the size computed from
    risk and stop-loss exceeds `accountBalance × 0.25`, *and the recomputed
    risk `accountBalance × 0.25 × sl/100` is still at least the $50 floor*,
    the returned result is approved with `sizeUsd` equal to the cap and
    `riskUsd` recomputed from the clamped size — never the pre-clamp risk.
    (When the recomputed risk falls below $50 the call is instead rejected
    with `size_usd = 0`, as the counterexample shows.) -/
theorem cap_clamp_approved_fields (account_balance risk_per_trade : ℚ)
    (max_positions : Int) (max_leverage confidence : ℚ)
    (long_basket short_basket : List AssetWeight)
    (volatilities : List (String × ℚ)) (open_positions : Int)
    (sl_percent va : ℚ)
    (hk : ¬ open_positions ≥ max_positions)
    (hva : calculate_vol_adjustment long_basket short_basket volatilities
      = some va)
    (hsl : ¬ sl_percent = 0)
    (hb : ¬ account_balance = 0)
    (hcap : account_balance * risk_per_trade * (1/2 + confidence / 20) * va *
        max (1 - (open_positions : ℚ) * (1/5)) (2/5) / (sl_percent / 100) >
      account_balance * (1/4))
    (hmin : ¬ account_balance * (1/4) * (sl_percent / 100) < 50) :
    calculate_position_size account_balance risk_per_trade max_positions
        max_leverage confidence long_basket short_basket volatilities
        open_positions sl_percent =
      some (.approved (round2 (account_balance * (1/4)))
        (round2 (account_balance * (1/4) / 2))
        (round2 (account_balance * (1/4) / 2))
        (round2 (account_balance * (1/4) * (sl_percent / 100)))
        (round2 (min (account_balance * (1/4) / (account_balance / 2))
          max_leverage))
        (round2 va) confidence sl_percent) := by
  unfold calculate_position_size
  rw [if_neg hk, hva]
  simp only
  rw [if_neg hsl, if_pos hcap, if_pos hcap, if_neg hb, if_neg hmin]

theorem cap_clamp_approved_fields_witness :
    calculate_position_size 20000 (1/50) 3 4 10 [⟨"BTC", 1⟩] [⟨"ETH", 1⟩]
        [("BTC", 4), ("ETH", 4)] 0 5 =
      some (.approved 5000 2500 2500 250 (1/2) 1 10 5) := by
  have hcva : calculate_vol_adjustment [⟨"BTC", 1⟩] [⟨"ETH", 1⟩]
      [("BTC", 4), ("ETH", 4)] = some 1 := by
    have hcls : ¬ (basket_classes [⟨"BTC", (1:ℚ)⟩] ≠
        basket_classes [⟨"ETH", (1:ℚ)⟩]) := by decide
    unfold calculate_vol_adjustment
    rw [if_neg hcls]
    norm_num [basket_pair_avg_vol, calculate_basket_volatility,
      basket_coins, asset_vol, dictGet]
  exact (cap_clamp_approved_fields 20000 (1/50) 3 4 10 [⟨"BTC", 1⟩]
    [⟨"ETH", 1⟩] [("BTC", 4), ("ETH", 4)] 0 5 1 (by norm_num) hcva
    (by norm_num) (by norm_num) (by norm_num [max_def]) (by norm_num)).trans
    (by norm_num [round2, round_eq, max_def, min_def])

/-! ### C3: totality of the externally consumed operations -/

theorem dictGet_getD_pos (l : List (String × ℚ))
    (hl : ∀ p ∈ l, 0 < p.2) (d : ℚ) (hd : 0 < d) (k : String) :
    0 < (dictGet l k).getD d := by
  induction l with
  | nil => simpa [dictGet]
  | cons p t ih =>
    obtain ⟨a, b⟩ := p
    simp only [dictGet]
    split_ifs
    · simpa using hl ⟨a, b⟩ (List.mem_cons_self _ _)
    · exact ih fun q hq => hl q (List.mem_cons_of_mem _ hq)

/-- The same-class crypto pair used as a concrete evaluation point. -/
theorem cva_crypto_pair :
    calculate_vol_adjustment [⟨"BTC", 1⟩] [⟨"ETH", 1⟩]
      [("BTC", 4), ("ETH", 4)] = some 1 := by
  have hcls : ¬ (basket_classes [⟨"BTC", (1:ℚ)⟩] ≠
      basket_classes [⟨"ETH", (1:ℚ)⟩]) := by decide
  unfold calculate_vol_adjustment
  rw [if_neg hcls]
  norm_num [basket_pair_avg_vol, calculate_basket_volatility,
    basket_coins, asset_vol, dictGet]

/-- C3 (counterexample): the operations are not total.  `sizePosition` with
    stop-loss 0 hits the division `risk_usd / (sl_percent / 100)` and raises
    `ZeroDivisionError` (modelled as `none`); `create_basket` with market-cap
    weighting and provided caps summing to zero raises at
    `[c / total for c in caps]`. -/
theorem sizing_and_market_cap_raise_on_zero :
    calculate_position_size 20000 (1/100) 3 4 (15/2) [⟨"BTC", 1⟩]
        [⟨"ETH", 1⟩] [("BTC", 4), ("ETH", 4)] 0 0 = none ∧
    create_basket ["BTC"] "market_cap" [] [] [("BTC", 0)] = none := by
  constructor
  · unfold calculate_position_size
    rw [cva_crypto_pair]
    norm_num
  · simp only [create_basket, basket_weights, market_cap_weight, dictGet,
      MAX_ASSETS_PER_SIDE]
    norm_num
    decide

/-- C3 (amended): `validate_basket` and `get_basket_type` contain no fallible
    operation and are total by construction; `create_basket` and
    `calculate_position_size` are total on every well-typed input *except*
    the division-by-zero inputs: provided market caps summing to zero over
    the (trimmed) basket, a zero stop-loss percent, a zero account balance,
    and a zero basket-pair average volatility *on a cross-asset pair* (the
    same-class branch never divides by the average, so same-class pairs are
    total even with zero or negative volatility values). -/
theorem operations_total_outside_zero_divisions :
    (∀ (assets : List String) (weighting : String)
        (v c mc : List (String × ℚ)),
      (weighting = "market_cap" → mc ≠ [] →
        ((assets.take MAX_ASSETS_PER_SIDE).map
          (fun a => (dictGet mc a).getD 10)).sum ≠ 0) →
      (create_basket assets weighting v c mc).isSome) ∧
    (∀ (account_balance risk_per_trade : ℚ) (max_positions : Int)
        (max_leverage confidence : ℚ)
        (long_basket short_basket : List AssetWeight)
        (volatilities : List (String × ℚ)) (open_positions : Int)
        (sl_percent : ℚ),
      sl_percent ≠ 0 → account_balance ≠ 0 →
      (basket_classes long_basket ≠ basket_classes short_basket →
        basket_pair_avg_vol long_basket short_basket volatilities ≠ 0) →
      (calculate_position_size account_balance risk_per_trade max_positions
        max_leverage confidence long_basket short_basket volatilities
        open_positions sl_percent).isSome) := by
  constructor
  · intro assets weighting v c mc hmc
    unfold create_basket
    split_ifs with ha
    · rfl
    · rw [Option.isSome_map']
      unfold basket_weights
      split_ifs with hw1 hw2 hw3 hw4
      · rfl
      · simp only [volatility_weight]
        exact emw_pos_isSome _ (by norm_num [MIN_WEIGHT_PER_ASSET]) _
      · simp only [conviction_weight]
        split_ifs
        · rfl
        · rfl
        · exact emw_pos_isSome _ (by norm_num [MIN_WEIGHT_PER_ASSET]) _
      · simp only [market_cap_weight]
        split_ifs with hm1 hz1 hz2
        · exfalso
          have hpos : 0 < ((assets.take MAX_ASSETS_PER_SIDE).map
              (fun a => (dictGet default_caps a).getD 10)).sum := by
            apply List.sum_pos
            · intro x hx
              obtain ⟨a, _, rfl⟩ := List.mem_map.mp hx
              exact dictGet_getD_pos default_caps (by decide) 10
                (by norm_num) a
            · simp only [ne_eq, List.map_eq_nil_iff]
              intro htake
              rcases List.take_eq_nil_iff.mp htake with h0 | h0
              · simp [MAX_ASSETS_PER_SIDE] at h0
              · exact ha h0
          exact absurd hz1 (ne_of_gt hpos)
        · exact emw_pos_isSome _ (by norm_num [MIN_WEIGHT_PER_ASSET]) _
        · exact absurd hz2 (hmc hw4 hm1)
        · exact emw_pos_isSome _ (by norm_num [MIN_WEIGHT_PER_ASSET]) _
      · rfl
  · intro account_balance risk_per_trade max_positions max_leverage
      confidence long_basket short_basket volatilities open_positions
      sl_percent hsl hb havg
    have hcva : (calculate_vol_adjustment long_basket short_basket
        volatilities).isSome := by
      unfold calculate_vol_adjustment
      by_cases hc : basket_classes long_basket ≠ basket_classes short_basket
      · rw [if_pos hc, if_neg (havg hc)]
        split_ifs <;> rfl
      · rw [if_neg hc]
        split_ifs <;> rfl
    obtain ⟨va, hva⟩ := Option.isSome_iff_exists.mp hcva
    unfold calculate_position_size
    by_cases hk : open_positions ≥ max_positions
    · rw [if_pos hk]
      rfl
    · rw [if_neg hk, hva]
      simp only
      rw [if_neg hsl, if_neg hb]
      split_ifs <;> rfl

theorem operations_total_witness :
    (create_basket ["BTC", "ETH"] "market_cap" [] [] []).isSome ∧
    (calculate_position_size 20000 (1/100) 3 4 8 [⟨"BTC", 1⟩] [⟨"ETH", 1⟩]
      [("BTC", 0), ("ETH", 0)] 0 5).isSome :=
  ⟨operations_total_outside_zero_divisions.1 ["BTC", "ETH"] "market_cap"
      [] [] [] (fun _ hne => absurd rfl hne),
    operations_total_outside_zero_divisions.2 20000 (1/100) 3 4 8
      [⟨"BTC", 1⟩] [⟨"ETH", 1⟩] [("BTC", 0), ("ETH", 0)] 0 5 (by norm_num)
      (by norm_num)
      (fun hc => absurd (by decide : basket_classes [⟨"BTC", (1:ℚ)⟩] =
        basket_classes [⟨"ETH", (1:ℚ)⟩]) hc)⟩

/-! ### C5: weight sums before and after rounding -/

theorem normalized_sum_one (l : List ℚ) (h : l.sum ≠ 0) :
    (l.map (fun x => x / l.sum)).sum = 1 := by
  rw [sum_map_div]
  exact div_self h

theorem bw_sum_one (assets : List String) (weighting : String)
    (v c mc : List (String × ℚ)) (ws : List ℚ) (ha : assets ≠ [])
    (hw : basket_weights assets weighting v c mc = some ws) : ws.sum = 1 := by
  have heq : (equal_weight assets).sum = 1 := by
    unfold equal_weight
    rw [List.sum_replicate, nsmul_eq_mul]
    have hn : (assets.length : ℚ) ≠ 0 :=
      Nat.cast_ne_zero.mpr fun h0 => ha (List.length_eq_zero.mp h0)
    field_simp
  unfold basket_weights at hw
  split_ifs at hw with hw1 hw2 hw3 hw4
  · injection hw with hw; subst hw; exact heq
  · simp only [volatility_weight] at hw
    refine emw_some_sum_one (normalized_sum_one _ (ne_of_gt ?_)) hw
    apply List.sum_pos
    · intro x hx
      obtain ⟨y, _, rfl⟩ := List.mem_map.mp hx
      exact one_div_pos.mpr (lt_of_lt_of_le (by norm_num) (le_max_right _ _))
    · simp only [ne_eq, List.map_eq_nil_iff]
      exact ha
  · simp only [conviction_weight] at hw
    split_ifs at hw with hc1 hc2
    · injection hw with hw; subst hw; exact heq
    · injection hw with hw; subst hw; exact heq
    · exact emw_some_sum_one
        (normalized_sum_one _ (ne_of_gt (lt_of_not_le hc2))) hw
  · simp only [market_cap_weight] at hw
    split_ifs at hw with hm1 hz1 hz2
    · exact emw_some_sum_one (normalized_sum_one _ hz1) hw
    · exact emw_some_sum_one (normalized_sum_one _ hz2) hw
  · injection hw with hw; subst hw; exact heq

theorem bw_length (assets : List String) (weighting : String)
    (v c mc : List (String × ℚ)) (ws : List ℚ)
    (hw : basket_weights assets weighting v c mc = some ws) :
    ws.length = assets.length := by
  unfold basket_weights at hw
  split_ifs at hw with hw1 hw2 hw3 hw4
  · injection hw with hw; subst hw; simp [equal_weight]
  · simp only [volatility_weight] at hw
    simpa using emw_some_length hw
  · simp only [conviction_weight] at hw
    split_ifs at hw with hc1 hc2
    · injection hw with hw; subst hw; simp [equal_weight]
    · injection hw with hw; subst hw; simp [equal_weight]
    · simpa using emw_some_length hw
  · simp only [market_cap_weight] at hw
    split_ifs at hw with hm1 hz1 hz2
    · simpa using emw_some_length hw
    · simpa using emw_some_length hw
  · injection hw with hw; subst hw; simp [equal_weight]

theorem abs_round4_sub (x : ℚ) : |round4 x - x| ≤ 1/20000 := by
  have h := abs_sub_round (x * 10000)
  have heq : round4 x - x =
      (((round (x * 10000) : ℤ) : ℚ) - x * 10000) / 10000 := by
    unfold round4
    ring
  rw [abs_sub_comm] at h
  rw [heq, abs_div, show |(10000:ℚ)| = 10000 by norm_num]
  linarith

theorem sum_map_round4_close (l : List ℚ) :
    |(l.map round4).sum - l.sum| ≤ (l.length : ℚ) * (1/20000) := by
  induction l with
  | nil => simp
  | cons a t ih =>
    simp only [List.map_cons, List.sum_cons, List.length_cons]
    have hr := abs_round4_sub a
    have habs : |round4 a + (t.map round4).sum - (a + t.sum)| ≤
        |round4 a - a| + |(t.map round4).sum - t.sum| := by
      have hsplit : round4 a + (t.map round4).sum - (a + t.sum) =
          (round4 a - a) + ((t.map round4).sum - t.sum) := by ring
      rw [hsplit]
      exact abs_add _ _
    push_cast
    linarith

/-- C5: for every weighting policy and every symbol list of size 1-5, the
    weight vector produced by the dispatch sums to within 0.0001 of 1 before
    rounding (in this exact-arithmetic model it sums to exactly 1), and the
    built basket's 4-decimal-rounded weights sum to within 0.01 of 1. -/
theorem basket_weights_sum_bounds (weighting : String) (assets : List String)
    (v c mc : List (String × ℚ)) (h1 : 1 ≤ assets.length)
    (h5 : assets.length ≤ 5) (ws : List ℚ) (basket : List AssetWeight)
    (hw : basket_weights assets weighting v c mc = some ws)
    (hb : create_basket assets weighting v c mc = some basket) :
    |ws.sum - 1| ≤ 1/10000 ∧
    |(basket.map (fun a => a.weight)).sum - 1| ≤ 1/100 := by
  have ha : assets ≠ [] := by
    intro h0
    rw [h0] at h1
    simp at h1
  have hsum := bw_sum_one assets weighting v c mc ws ha hw
  have hlen := bw_length assets weighting v c mc ws hw
  refine ⟨by rw [hsum]; norm_num, ?_⟩
  unfold create_basket at hb
  rw [if_neg ha] at hb
  have htake : assets.take MAX_ASSETS_PER_SIDE = assets :=
    List.take_of_length_le (by simpa [MAX_ASSETS_PER_SIDE] using h5)
  simp only [htake, hw, Option.map_some', Option.some.injEq] at hb
  subst hb
  have hmapeq : (((assets.zip ws).map
      (fun p => ({ coin := p.1, weight := round4 p.2 } : AssetWeight))).map
        (fun a => a.weight)) = ws.map round4 := by
    rw [List.map_map]
    rw [show ((fun a : AssetWeight => a.weight) ∘
        (fun p : String × ℚ =>
          ({ coin := p.1, weight := round4 p.2 } : AssetWeight)))
        = round4 ∘ Prod.snd from rfl]
    rw [← List.map_map, List.map_snd_zip _ _ (le_of_eq hlen)]
  rw [hmapeq]
  have hclose := sum_map_round4_close ws
  have hlq : (ws.length : ℚ) ≤ 5 := by
    rw [hlen]
    exact_mod_cast h5
  have htri : |(ws.map round4).sum - 1| ≤
      |(ws.map round4).sum - ws.sum| + |ws.sum - 1| := by
    have hsplit : (ws.map round4).sum - 1 =
        ((ws.map round4).sum - ws.sum) + (ws.sum - 1) := by ring
    rw [hsplit]
    exact abs_add _ _
  have h0 : |ws.sum - 1| = 0 := by rw [hsum]; simp
  linarith

theorem basket_weights_sum_bounds_witness :
    |([(1:ℚ)].sum - 1)| ≤ 1/10000 ∧
    |((([⟨"BTC", (1:ℚ)⟩] : List AssetWeight).map
        (fun a => a.weight)).sum - 1)| ≤ 1/100 :=
  basket_weights_sum_bounds "equal" ["BTC"] [] [] [] (by decide) (by decide)
    [1] [⟨"BTC", 1⟩]
    (by norm_num [basket_weights, equal_weight, List.replicate])
    (by norm_num [create_basket, basket_weights, equal_weight,
      List.replicate, MAX_ASSETS_PER_SIDE, round4, round_eq])

end PeRatio
